import Mathlib

set_option autoImplicit false

universe u v w

/-!
Verification development for the RAG-powered chatbot backend.

The repository's core (text cleaning and chunking, embedding generation
with retry/backoff and batching, the Qdrant collection lifecycle, the
Redis-backed conversation store, the RAG orchestrator branch logic and
cosine similarity) is shallowly embedded below.  JavaScript strings are
modelled by Lean `String`/`List Char`; the remote embedding provider,
the generative model and the vector index are modelled as explicit
oracles / state, and every network failure is represented by an explicit
error value.  Unicode NFC normalization (`String.prototype.normalize`)
has no Lean analogue and is passed in as a parameter `nfc`; on ASCII
input it is the identity, which is what the concrete witnesses use.
-/

namespace RagBackend

variable {α : Type u} {ε : Type v}

/-! ## Character classes used by `prepareTextForEmbedding` (embeddings.js) -/

/-- Characters removed by the first regex in `prepareTextForEmbedding`:
`[\u0000-\u0008\u000B\u000C\u000E-\u001F\u007F-\u009F]`. -/
def isRemovedControl (c : Char) : Bool :=
  (c.toNat ≤ 0x8) || c.toNat = 0xB || c.toNat = 0xC ||
  (0xE ≤ c.toNat && c.toNat ≤ 0x1F) || (0x7F ≤ c.toNat && c.toNat ≤ 0x9F)

/-- Zero-width characters removed by the regex `[​-‍﻿]`. -/
def isZeroWidth (c : Char) : Bool :=
  (0x200B ≤ c.toNat && c.toNat ≤ 0x200D) || c.toNat = 0xFEFF

/-- JavaScript `\s` (also the set trimmed by `String.prototype.trim`). -/
def isJsWs (c : Char) : Bool :=
  c.toNat = 0x20 || c.toNat = 0x9 || c.toNat = 0xA || c.toNat = 0xB ||
  c.toNat = 0xC || c.toNat = 0xD || c.toNat = 0xA0 || c.toNat = 0x1680 ||
  (0x2000 ≤ c.toNat && c.toNat ≤ 0x200A) || c.toNat = 0x2028 ||
  c.toNat = 0x2029 || c.toNat = 0x202F || c.toNat = 0x205F ||
  c.toNat = 0x3000 || c.toNat = 0xFEFF

/-- Characters kept by the final regex `[^\x20-\x7E -￿]` removal
(JS operates on UTF-16 code units, so every char `≥ U+00A0` survives). -/
def isKept (c : Char) : Bool :=
  (0x20 ≤ c.toNat && c.toNat ≤ 0x7E) || 0xA0 ≤ c.toNat

/-- `s.replace(/\s+/g, " ")`: each maximal whitespace run becomes one space.
The boolean flag records whether the previous character was whitespace
(i.e. whether we are in the middle of a run already replaced). -/
def collapseWsAux : Bool → List Char → List Char
  | _, [] => []
  | true, c :: cs =>
      if isJsWs c then collapseWsAux true cs else c :: collapseWsAux false cs
  | false, c :: cs =>
      if isJsWs c then ' ' :: collapseWsAux true cs else c :: collapseWsAux false cs

/-- JavaScript `String.prototype.trim` on a character list. -/
def jsTrim (l : List Char) : List Char :=
  ((l.dropWhile isJsWs).reverse.dropWhile isJsWs).reverse

/-- JavaScript `String.prototype.trim`. -/
def jsTrimStr (s : String) : String := String.mk (jsTrim s.data)

/-- JavaScript `String.prototype.lastIndexOf` for a single character
(`-1` when the character does not occur). -/
def lastIndexOfC (c : Char) : List Char → Int
  | [] => -1
  | x :: xs =>
      let r := lastIndexOfC c xs
      if r ≥ 0 then r + 1 else if x = c then 0 else -1

/-- The final length guard of `prepareTextForEmbedding`: texts over 8000
characters are cut at 8000 and, when a sentence end `.`/`!`/`?` occurs
after position 7000, cut again just after that sentence end. -/
def truncateAt8000 (l : List Char) : List Char :=
  if l.length > 8000 then
    let p := l.take 8000
    let lastSentenceEnd :=
      max (max (lastIndexOfC '.' p) (lastIndexOfC '!' p)) (lastIndexOfC '?' p)
    if lastSentenceEnd > 7000 then p.take (lastSentenceEnd + 1).toNat else p
  else l

/-- `EmbeddingsService.prepareTextForEmbedding` (embeddings.js lines 125-169).
`nfc` stands for `String.prototype.normalize("NFC")`.  The `!text` guard is
the JS falsiness check (the empty string is falsy); non-string inputs are
outside this typed model. -/
def prepareTextForEmbedding (nfc : String → String) (text : String) : String :=
  if text = "" then "" else
    let s1 := text.data.filter (fun c => !isRemovedControl c)
    let s2 := (nfc (String.mk s1)).data
    let s3 := s2.filter (fun c => !isZeroWidth c)
    let s4 := jsTrim (collapseWsAux false s3)
    let s5 := s4.filter isKept
    String.mk (truncateAt8000 s5)

/-! ## Sentence splitting and chunk packing (`processTextForEmbedding`) -/

/-- Split on the regex `/(?<=[.!?])\s+/`: a maximal whitespace run whose
immediately preceding character is `.`, `!` or `?` separates sentences
(the run itself is consumed).  `prev` is the previous original character;
`inSep` records that we are inside a separator run already consumed. -/
def splitSentGo : Char → Bool → List Char → List Char → List (List Char)
  | _, _, cur, [] => [cur.reverse]
  | prev, inSep, cur, c :: cs =>
      if inSep && isJsWs c then splitSentGo c true cur cs
      else if isJsWs c && (prev = '.' || prev = '!' || prev = '?') then
        cur.reverse :: splitSentGo c true [] cs
      else splitSentGo c false (c :: cur) cs

/-- `cleanText.split(/(?<=[.!?])\s+/)` (the sentinel previous character is
arbitrary non-punctuation, standing for "start of string"). -/
def splitSentences (l : List Char) : List (List Char) :=
  splitSentGo 'a' false [] l

/-- The greedy sentence-packing loop of `processTextForEmbedding`
(embeddings.js lines 267-291).  State is `(chunks, currentChunk)`;
empty-string falsiness checks become emptiness checks on char lists. -/
def packLoop (maxLength : Nat) :
    List (List Char) → List (List Char) × List Char → List (List Char) × List Char
  | [], st => st
  | s :: rest, (chunks, cur) =>
      let ts := jsTrim s
      if ts = [] then packLoop maxLength rest (chunks, cur)
      else
        let potential := if cur = [] then ts else cur ++ [' '] ++ ts
        if potential.length ≤ maxLength then
          packLoop maxLength rest (chunks, potential)
        else
          let chunks' := if cur = [] then chunks else chunks ++ [cur]
          let cur' := if ts.length > maxLength then ts.take maxLength else ts
          packLoop maxLength rest (chunks', cur')

/-- The character-slicing fallback (embeddings.js lines 299-303): fixed
7500-wide slices.  The JS `for` loop advances by 7500 each iteration, so
`l.length` iterations of fuel always suffice. -/
def charSlicesF : Nat → List Char → List (List Char)
  | 0, _ => []
  | _ + 1, [] => []
  | fuel + 1, l => l.take 7500 :: charSlicesF fuel (l.drop 7500)

/-- `EmbeddingsService.processTextForEmbedding` (embeddings.js lines 240-318):
clean, reject under-10 texts, single chunk up to 7500 chars, otherwise
sentence-based packing with fallback slicing, then the final
`10 ≤ trimmed length ≤ 8000` filter. -/
def processTextForEmbedding (nfc : String → String) (text : String) : List String :=
  if text = "" then [] else
    let cleanText := prepareTextForEmbedding nfc text
    if cleanText = "" ∨ cleanText.length < 10 then [] else
      let maxLength := 7500
      if cleanText.length ≤ maxLength then [cleanText] else
        let sentences :=
          (splitSentences cleanText.data).filter (fun s => (jsTrim s).length > 0)
        let pl := packLoop maxLength sentences ([], [])
        let chunks1 := if pl.2 = [] then pl.1 else pl.1 ++ [pl.2]
        let chunks2 :=
          if chunks1 = [] then charSlicesF cleanText.data.length cleanText.data
          else chunks1
        (chunks2.map String.mk).filter
          (fun c => decide (10 ≤ (jsTrimStr c).length ∧ (jsTrimStr c).length ≤ 8000))

/-! ## Embedding client (`EmbeddingsService`, embeddings.js)

The Jina HTTP endpoint is an oracle indexed by a call counter (so that
successive attempts may behave differently) and by the request payload.
A JavaScript `Error` object is modelled by its message together with the
optional `error.response.status` an axios error would carry. -/

/-- An embedding vector. -/
abbrev Vec := List ℚ

/-- A thrown JS error: its `message` and, when it is an axios error with a
response, the HTTP status found at `error.response.status`. -/
structure JsError where
  message : String
  response : Option Nat
  deriving Repr, DecidableEq

/-- Outcome of one HTTP call to the embedding provider: a well-formed body
(`data[i].embedding` for each `i`) or an axios error, whose `status` is
`none` for network-level failures with no response. -/
inductive ApiOutcome where
  | ok (embeddings : List Vec)
  | err (status : Option Nat)

/-- The embedding provider as an oracle: call counter and request texts
determine the outcome. -/
abbrev Provider := Nat → List String → ApiOutcome

/-- The per-text validation of `generateEmbeddings` (embeddings.js lines
26-30): a string whose trimmed form is nonempty and at most 8192 chars.
The JS `!text` falsiness guard coincides with nonemptiness after trim. -/
def validText (t : String) : Bool :=
  0 < (jsTrimStr t).length && (jsTrimStr t).length ≤ 8192

/-- The original axios error message rebuilt by the `catch` wrap. -/
def axiosMessage : Option Nat → String
  | some s => "Request failed with status code " ++ toString s
  | none => "Network Error"

/-- How the `catch` block of `generateEmbeddings` (lines 87-117) rewraps a
provider error: specific messages for 422/429/401, the generic wrap
otherwise.  Every rethrown value is a fresh `new Error(...)`, so its
`response` field is always absent. -/
def wrapApiError (status : Option Nat) : JsError :=
  match status with
  | some 422 => ⟨"Jina API validation error: response data", none⟩
  | some 429 => ⟨"Rate limit exceeded. Please try again later.", none⟩
  | some 401 => ⟨"Invalid API key. Please check your JINA_API_KEY.", none⟩
  | s => ⟨"Failed to generate embeddings: " ++ axiosMessage s, none⟩

/-- `generateEmbeddings` on an array argument (embeddings.js lines 20-118).
Invalid texts are filtered out; if none survive, the internal
`"No valid texts provided for embedding"` error is thrown, caught by the
function's own `catch` (it has no `response`) and rethrown wrapped.
Valid texts are cleaned by `prepareTextForEmbedding` and sent; a
well-typed success body passes the format checks and is returned as-is. -/
def generateEmbeddingsArr (nfc : String → String) (provider : Provider)
    (ctr : Nat) (texts : List String) : Except JsError (List Vec) :=
  let validTexts := texts.filter validText
  if validTexts.isEmpty then
    .error ⟨"Failed to generate embeddings: No valid texts provided for embedding", none⟩
  else
    let processedTexts := validTexts.map (prepareTextForEmbedding nfc)
    match provider ctr processedTexts with
    | .ok embs => .ok embs
    | .err status => .error (wrapApiError status)

/-- `generateEmbeddings` on a single string argument: the input is wrapped
in a one-element array and `embeddings[0]` is returned (JS would yield
`undefined` on an empty response body; that corner is modelled by `[]`). -/
def generateEmbeddingsOne (nfc : String → String) (provider : Provider)
    (ctr : Nat) (text : String) : Except JsError Vec :=
  (generateEmbeddingsArr nfc provider ctr [text]).map (fun embs => embs.headD [])

/-- The loop body of `generateEmbeddingsWithRetry` (embeddings.js lines
177-233), generic in the underlying call.  `remaining` counts the attempts
left after the current one (`remaining = 0` means `attempt = maxRetries`);
`ctr` numbers the calls; the returned list holds the delay waited before
each performed attempt, i.e. `baseDelay 1000 + (attempt > 1 ? 2^(attempt-1)
* 1000 : 0)`.  A caught error is rethrown at once for status 401/403, or
for 422 on the final attempt; after the final attempt `lastError` is
thrown. -/
def genRetryGo (call : Nat → Except JsError α) :
    Nat → Nat → Nat → JsError → Except JsError α × List Nat
  | 0, _, _, lastErr => (.error lastErr, [])
  | remaining + 1, attempt, ctr, _ =>
      let totalDelay := 1000 + (if attempt > 1 then 2 ^ (attempt - 1) * 1000 else 0)
      match call ctr with
      | .ok v => (.ok v, [totalDelay])
      | .error e =>
          let isLast := remaining = 0
          let rethrow :=
            match e.response with
            | some status => (status = 401 || status = 403) || (status = 422 && isLast)
            | none => false
          if rethrow || isLast then (.error e, [totalDelay])
          else
            let r := genRetryGo call remaining (attempt + 1) (ctr + 1) e
            (r.1, totalDelay :: r.2)

/-- The value `lastError` holds before any attempt ran (JS `undefined`). -/
def undefinedErr : JsError := ⟨"undefined", none⟩

/-- `generateEmbeddingsWithRetry` on an array argument. -/
def generateEmbeddingsWithRetryArr (nfc : String → String) (provider : Provider)
    (texts : List String) (maxRetries : Nat) (ctr : Nat) :
    Except JsError (List Vec) × List Nat :=
  genRetryGo (fun c => generateEmbeddingsArr nfc provider c texts)
    maxRetries 1 ctr undefinedErr

/-- `generateEmbeddingsWithRetry` on a single string argument. -/
def generateEmbeddingsWithRetryOne (nfc : String → String) (provider : Provider)
    (text : String) (maxRetries : Nat) (ctr : Nat) :
    Except JsError Vec × List Nat :=
  genRetryGo (fun c => generateEmbeddingsOne nfc provider c text)
    maxRetries 1 ctr undefinedErr

/-- The per-item fallback of `batchGenerateEmbeddings` (embeddings.js lines
386-398): each text of the failed batch is retried individually; a
success is pushed, a failure pushes `null`.  Returns the pushed entries
and the advanced call counter. -/
def perItems (nfc : String → String) (provider : Provider) :
    List String → Nat → List (Option Vec) × Nat
  | [], ctr => ([], ctr)
  | t :: ts, ctr =>
      let call := generateEmbeddingsWithRetryOne nfc provider t 3 ctr
      let rest := perItems nfc provider ts (ctr + call.2.length)
      ((match call.1 with | .ok v => some v | .error _ => none) :: rest.1, rest.2)

/-- The batch loop of `batchGenerateEmbeddings` (embeddings.js lines
357-400).  Each iteration consumes at least one text when `bs ≥ 1`, so
`texts.length` iterations of fuel always suffice.  On a successful batch
the embeddings are spread into the result (the JS
`Array.isArray(embeddings[0])` test distinguishes an array-of-arrays; an
empty response would push the single value `[]`); on a failed batch the
per-item fallback runs.  The inter-batch sleep does not affect values. -/
def batchGoF (nfc : String → String) (provider : Provider) (bs : Nat) :
    Nat → List String → Nat → List (Option Vec)
  | 0, _, _ => []
  | _ + 1, [], _ => []
  | fuel + 1, texts, ctr =>
      let batch := texts.take bs
      let call := generateEmbeddingsWithRetryArr nfc provider batch 3 ctr
      let ctr' := ctr + call.2.length
      match call.1 with
      | .ok embs =>
          (if embs.isEmpty then [some []] else embs.map some) ++
            batchGoF nfc provider bs fuel (texts.drop bs) ctr'
      | .error _ =>
          let pi := perItems nfc provider batch ctr'
          pi.1 ++ batchGoF nfc provider bs fuel (texts.drop bs) pi.2

/-- `EmbeddingsService.batchGenerateEmbeddings` (embeddings.js lines
352-408).  `delayMs` only controls sleeping and is irrelevant to the
returned value; `ctr` is the starting call counter of the oracle. -/
def batchGenerateEmbeddings (nfc : String → String) (provider : Provider)
    (texts : List String) (bs : Nat) (delayMs : Nat) (ctr : Nat) :
    List (Option Vec) :=
  let _ := delayMs
  batchGoF nfc provider bs texts.length texts ctr

/-- A provider that honours the embedding contract of §6: a successful
response carries exactly one embedding per requested text. -/
def Faithful (provider : Provider) : Prop :=
  ∀ ctr req embs, provider ctr req = .ok embs → embs.length = req.length

/-! ## Qdrant collection lifecycle (`initializeQdrant`, config/database.js) -/

/-- The vector parameters of a Qdrant collection (`vectors.size` /
`vectors.distance` in the create payload). -/
structure VectorsConfig where
  size : Nat
  distance : String
  deriving Repr, DecidableEq

/-- The state of the single `news_embeddings` collection on a reachable
Qdrant server: `none` when the collection does not exist. -/
abbrev QdrantState := Option VectorsConfig

/-- Observable collection-mutating calls issued by `initializeQdrant`. -/
inductive QdrantEvent where
  | deleted
  | created (cfg : VectorsConfig)
  deriving Repr, DecidableEq

/-- `qdrantHttp.getCollection`: the HTTP GET succeeds exactly when the
collection exists (a missing collection is a thrown error). -/
def getCollection (s : QdrantState) : Except String VectorsConfig :=
  match s with
  | some cfg => .ok cfg
  | none => .error "Collection not found: 404"

/-- `qdrantHttp.deleteCollection` on a reachable server. -/
def deleteCollection (_ : QdrantState) : QdrantState := none

/-- `qdrantHttp.createCollection` on a reachable server. -/
def createCollection (_ : QdrantState) (cfg : VectorsConfig) : QdrantState :=
  some cfg

/-- `initializeQdrant` (config/database.js lines 121-173) on a reachable
server: look the collection up; on a dimension mismatch delete it and
throw `"Need to recreate collection"`, which the surrounding `catch`
(also reached when the collection does not exist) answers by creating
the collection with size 768 and Cosine distance.  Returns the final
server state and the trace of mutating calls. -/
def initializeQdrant (s : QdrantState) : QdrantState × List QdrantEvent :=
  match getCollection s with
  | .ok info =>
      if info.size ≠ 768 then
        let s1 := deleteCollection s
        let s2 := createCollection s1 ⟨768, "Cosine"⟩
        (s2, [.deleted, .created ⟨768, "Cosine"⟩])
      else (s, [])
  | .error _ =>
      (createCollection s ⟨768, "Cosine"⟩, [.created ⟨768, "Cosine"⟩])

/-! ## Conversation store (`sessionUtils`, config/database.js)

The Redis list at `messages:{sessionId}` is a Lean list whose head is the
most recently pushed element; a stored message (the JSON text with its
timestamp) is an opaque value. -/

/-- `sessionUtils.addMessage` (lines 210-225): `LPUSH` of the serialized
message (counter increment and TTL refresh do not affect the list). -/
def addMessage (m : α) (store : List α) : List α := m :: store

/-- Redis `LRANGE key start stop` with `start = 0`: elements from index 0
through `stop` inclusive, a negative `stop` counting from the end, an
out-of-range `stop` clamped to the last element. -/
def redisLrange (store : List α) (stop : Int) : List α :=
  let n : Int := store.length
  let e := if stop < 0 then n + stop else min stop (n - 1)
  if e < 0 then [] else store.take (e + 1).toNat

/-- `sessionUtils.getMessages` (lines 227-231): `LRANGE 0 (limit-1)`
followed by a reversal (parse/stringify round-trips are identities). -/
def getMessages (store : List α) (limit : Int) : List α :=
  (redisLrange store (limit - 1)).reverse

/-- The store produced by appending the messages of `l` in order
(`l.head` oldest, appended first). -/
def mkStore (l : List α) : List α :=
  l.foldl (fun s m => addMessage m s) []

/-! ## RAG orchestrator (`processRAGQuery`, chatController.js)

The generative model lives in `services/llm` (its methods are called with
these exact names from the controller); it and the vector search are
oracles.  `R` is the response type, `D` a retrieved document, `H` a
history message. -/

/-- The generative-model collaborator as seen from `processRAGQuery`. -/
structure LLMOracle (R D H : Type) where
  expandQuery : String → String
  generateRAGResponseWithRetry : String → List D → List H → R
  generateFallbackResponse : String → R

/-- `vectorUtils.searchSimilar` as an oracle (a network failure is an
explicit error). -/
structure SearchOracle (D : Type) where
  searchSimilar : Vec → Nat → Except JsError (List D)

/-- The non-news branch of `sendMessage` (chatController.js lines 68-71):
a context-free generative answer. -/
def nonNewsResponse {R D H : Type} (llm : LLMOracle R D H) (userMessage : String) : R :=
  llm.generateFallbackResponse userMessage

/-- `ChatController.processRAGQuery` (chatController.js lines 242-282):
expand the query, embed the concatenation with retry, retrieve the top 5
similar documents, and answer with grounded generation when anything was
retrieved, with the context-free fallback otherwise.  Errors of the
embedding call or of the search propagate. -/
def processRAGQuery {R D H : Type} (nfc : String → String) (provider : Provider)
    (llm : LLMOracle R D H) (vs : SearchOracle D)
    (query : String) (hist : List H) (ctr : Nat) : Except JsError R :=
  let expandedQuery := llm.expandQuery query
  let searchQuery := jsTrimStr (query ++ " " ++ expandedQuery)
  match (generateEmbeddingsWithRetryOne nfc provider searchQuery 3 ctr).1 with
  | .error e => .error e
  | .ok queryEmbedding =>
      match vs.searchSimilar queryEmbedding 5 with
      | .error e => .error e
      | .ok retrievedDocuments =>
          if retrievedDocuments.length > 0 then
            .ok (llm.generateRAGResponseWithRetry query retrievedDocuments hist)
          else
            .ok (llm.generateFallbackResponse query)

/-! ## Cosine similarity (`calculateSimilarity`, embeddings.js)

Float arithmetic is idealized over `ℝ`; `Math.sqrt` is `Real.sqrt`. -/

/-- The accumulation loop of `calculateSimilarity` (lines 335-339),
running over both vectors in lockstep: returns
`(dotProduct, normA, normB)`. -/
def simLoop : List ℝ → List ℝ → ℝ × ℝ × ℝ
  | [], _ => (0, 0, 0)
  | _, [] => (0, 0, 0)
  | a :: as, b :: bs =>
      let r := simLoop as bs
      (r.1 + a * b, r.2.1 + a * a, r.2.2 + b * b)

/-- `EmbeddingsService.calculateSimilarity` (embeddings.js lines 326-343):
an error when the dimensions differ, `0` when either magnitude is zero,
the normalized dot product otherwise.  (The JS `null`/`undefined` guard
has no counterpart for always-present Lean lists.) -/
noncomputable def calculateSimilarity (a b : List ℝ) : Except String ℝ :=
  if a.length ≠ b.length then
    .error "Vectors must be valid and have the same dimension"
  else
    let acc := simLoop a b
    let magnitude := Real.sqrt acc.2.1 * Real.sqrt acc.2.2
    if magnitude = 0 then .ok 0 else .ok (acc.1 / magnitude)

/-! ## Shared helper lemmas -/

/-- Taking `min k (length l)` is the same as taking `k`. -/
theorem take_min_length (l : List α) (k : Nat) :
    l.take (min k l.length) = l.take k := by
  rcases Nat.le_total k l.length with h | h
  · rw [Nat.min_eq_left h]
  · rw [Nat.min_eq_right h, List.take_length, List.take_of_length_le h]

/-- Taking from the reversed list and reversing back drops the oldest
elements. -/
theorem reverse_take_reverse (l : List α) (m : Nat) :
    (l.reverse.take m).reverse = l.drop (l.length - m) := by
  induction l with
  | nil => simp
  | cons x xs ih =>
    by_cases h : m ≤ xs.length
    · rw [List.reverse_cons, List.take_append_of_le_length (by simpa using h)]
      rw [ih]
      have h2 : xs.length + 1 - m = (xs.length - m) + 1 := by omega
      rw [List.length_cons, h2, List.drop_succ_cons]
    · have h1 : (x :: xs).reverse.length ≤ m := by simp; omega
      rw [List.take_of_length_le h1, List.reverse_reverse]
      have h2 : (x :: xs).length - m = 0 := by simp; omega
      rw [h2, List.drop_zero]

/-- The message store built by successive `addMessage` pushes is the
reversed append history. -/
theorem mkStore_eq_reverse (l : List α) : mkStore l = l.reverse := by
  have go : ∀ (l acc : List α), l.foldl (fun s m => addMessage m s) acc = l.reverse ++ acc := by
    intro l
    induction l with
    | nil => simp
    | cons x xs ih => intro acc; simp [ih, addMessage, List.reverse_cons]
  simpa using go l []

/-- `dropWhile` never lengthens a list. -/
theorem length_dropWhile_le (p : α → Bool) (l : List α) :
    (l.dropWhile p).length ≤ l.length := by
  induction l with
  | nil => simp
  | cons x xs ih =>
    rw [List.dropWhile_cons]
    split
    · exact Nat.le_succ_of_le ih
    · simp

/-- Trimming never lengthens a string. -/
theorem jsTrim_length_le (l : List Char) : (jsTrim l).length ≤ l.length := by
  unfold jsTrim
  calc ((l.dropWhile isJsWs).reverse.dropWhile isJsWs).reverse.length
      = ((l.dropWhile isJsWs).reverse.dropWhile isJsWs).length := by
        rw [List.length_reverse]
    _ ≤ (l.dropWhile isJsWs).reverse.length := length_dropWhile_le _ _
    _ = (l.dropWhile isJsWs).length := by rw [List.length_reverse]
    _ ≤ l.length := length_dropWhile_le _ _

/-- Loop invariant of the sentence-packing loop: if every accumulated
chunk and the current chunk are within `maxLength`, so are all chunks
and the current chunk at the end. -/
theorem packLoop_bound (maxLength : Nat) (sents : List (List Char)) :
    ∀ chunks cur, (∀ c ∈ chunks, c.length ≤ maxLength) → cur.length ≤ maxLength →
      (∀ c ∈ (packLoop maxLength sents (chunks, cur)).1, c.length ≤ maxLength) ∧
      (packLoop maxLength sents (chunks, cur)).2.length ≤ maxLength := by
  induction sents with
  | nil => intro chunks cur hch hcur; exact ⟨hch, hcur⟩
  | cons s rest ih =>
    intro chunks cur hch hcur
    rw [packLoop]
    by_cases hts : jsTrim s = []
    · rw [if_pos hts]
      exact ih chunks cur hch hcur
    · rw [if_neg hts]
      by_cases hpot :
          (if cur = [] then jsTrim s else cur ++ [' '] ++ jsTrim s).length ≤ maxLength
      · rw [if_pos hpot]
        exact ih chunks _ hch hpot
      · rw [if_neg hpot]
        refine ih _ _ ?_ ?_
        · intro c hc
          by_cases hcur0 : cur = []
          · rw [if_pos hcur0] at hc
            exact hch c hc
          · rw [if_neg hcur0] at hc
            rcases List.mem_append.mp hc with h | h
            · exact hch c h
            · simp at h
              subst h
              exact hcur
        · by_cases hlong : (jsTrim s).length > maxLength
          · rw [if_pos hlong]
            simp
          · rw [if_neg hlong]
            omega

/-- Every slice produced by the character-slicing fallback is at most
7500 characters long. -/
theorem charSlicesF_bound : ∀ (fuel : Nat) (l : List Char),
    ∀ c ∈ charSlicesF fuel l, c.length ≤ 7500 := by
  intro fuel
  induction fuel with
  | zero => intro l c hc; simp [charSlicesF] at hc
  | succ n ih =>
    intro l c hc
    match l with
    | [] => simp [charSlicesF] at hc
    | x :: xs =>
      rw [charSlicesF] at hc
      · rcases List.mem_cons.mp hc with h | h
        · subst h
          simp
        · exact ih _ c h
      · simp

/-! ## C2: texts of cleaned length at most 7500 -/

/-- C2 as frozen is refuted by `"short"`: its cleaned length is `5 ≤ 7500`,
yet `processTextForEmbedding` returns no chunk at all, because cleaned
texts shorter than 10 characters are rejected first. -/
theorem C2_counterexample :
    (prepareTextForEmbedding id "short").length ≤ 7500 ∧
    processTextForEmbedding id "short" = [] ∧
    processTextForEmbedding id "short" ≠ [prepareTextForEmbedding id "short"] := by
  refine ⟨by decide, by decide, by decide⟩

/-- C2 (amended): for every text whose cleaned length is between 10 and
7500 characters, `processTextForEmbedding` returns exactly one chunk,
equal to the cleaned text. -/
theorem C2_single_chunk (nfc : String → String) (T : String)
    (h10 : 10 ≤ (prepareTextForEmbedding nfc T).length)
    (h75 : (prepareTextForEmbedding nfc T).length ≤ 7500) :
    processTextForEmbedding nfc T = [prepareTextForEmbedding nfc T] := by
  have hT : T ≠ "" := by
    intro h
    rw [h] at h10
    simp [prepareTextForEmbedding] at h10
  have hne : ¬(prepareTextForEmbedding nfc T = "" ∨
      (prepareTextForEmbedding nfc T).length < 10) := by
    rintro (h | h)
    · rw [h] at h10; simp at h10
    · omega
  simp only [processTextForEmbedding, if_neg hT, if_neg hne, if_pos h75]

/-- Witness for C2 at a concrete 24-character text. -/
theorem C2_single_chunk_witness :
    10 ≤ (prepareTextForEmbedding id "hello   world  this is fine").length ∧
    (prepareTextForEmbedding id "hello   world  this is fine").length ≤ 7500 ∧
    processTextForEmbedding id "hello   world  this is fine" =
      [prepareTextForEmbedding id "hello   world  this is fine"] :=
  ⟨by decide, by decide, C2_single_chunk id _ (by decide) (by decide)⟩

/-! ## C3: every produced chunk has length in [10, 8000] -/

/-- All chunk candidates of the long-text path (packed sentences, or the
character slices when packing produced nothing) are at most 7500
characters long. -/
theorem chunk_candidates_bound (sents : List (List Char)) (data : List Char)
    (c : List Char)
    (hc : c ∈ (if (if (packLoop 7500 sents ([], [])).2 = []
        then (packLoop 7500 sents ([], [])).1
        else (packLoop 7500 sents ([], [])).1 ++ [(packLoop 7500 sents ([], [])).2]) = []
      then charSlicesF data.length data
      else (if (packLoop 7500 sents ([], [])).2 = []
        then (packLoop 7500 sents ([], [])).1
        else (packLoop 7500 sents ([], [])).1 ++ [(packLoop 7500 sents ([], [])).2]))) :
    c.length ≤ 7500 := by
  have hbase := packLoop_bound 7500 sents [] [] (by simp) (by simp)
  have hchunks1 : ∀ x ∈ (if (packLoop 7500 sents ([], [])).2 = []
      then (packLoop 7500 sents ([], [])).1
      else (packLoop 7500 sents ([], [])).1 ++ [(packLoop 7500 sents ([], [])).2]),
      x.length ≤ 7500 := by
    intro x hx
    by_cases h2 : (packLoop 7500 sents ([], [])).2 = []
    · rw [if_pos h2] at hx
      exact hbase.1 x hx
    · rw [if_neg h2] at hx
      rcases List.mem_append.mp hx with h | h
      · exact hbase.1 x h
      · simp at h
        subst h
        exact hbase.2
  by_cases hemp : (if (packLoop 7500 sents ([], [])).2 = []
      then (packLoop 7500 sents ([], [])).1
      else (packLoop 7500 sents ([], [])).1 ++ [(packLoop 7500 sents ([], [])).2]) = []
  · rw [if_pos hemp] at hc
    exact charSlicesF_bound data.length data c hc
  · rw [if_neg hemp] at hc
    exact hchunks1 c hc

/-- C3: every chunk returned by `processTextForEmbedding` has length
between 10 and 8000 characters (in fact at most 7500 by construction;
the final filter itself only bounds the trimmed length). -/
theorem C3_chunk_length_bounds (nfc : String → String) (text : String)
    (c : String) (hc : c ∈ processTextForEmbedding nfc text) :
    10 ≤ c.length ∧ c.length ≤ 8000 := by
  by_cases ht : text = ""
  · rw [ht] at hc
    simp [processTextForEmbedding] at hc
  · simp only [processTextForEmbedding, if_neg ht] at hc
    by_cases h1 : prepareTextForEmbedding nfc text = "" ∨
        (prepareTextForEmbedding nfc text).length < 10
    · rw [if_pos h1] at hc
      simp at hc
    · rw [if_neg h1] at hc
      push_neg at h1
      by_cases h2 : (prepareTextForEmbedding nfc text).length ≤ 7500
      · rw [if_pos h2] at hc
        simp at hc
        subst hc
        exact ⟨by omega, by omega⟩
      · rw [if_neg h2] at hc
        rw [List.mem_filter] at hc
        obtain ⟨hmem, hpred⟩ := hc
        rw [List.mem_map] at hmem
        obtain ⟨c', hc', rfl⟩ := hmem
        have hlen : (String.mk c').length = c'.length := rfl
        have hup : c'.length ≤ 7500 := chunk_candidates_bound _ _ c' hc'
        have htr : (jsTrimStr (String.mk c')).length = (jsTrim c').length := rfl
        rw [decide_eq_true_eq, htr] at hpred
        have hle := jsTrim_length_le c'
        rw [hlen]
        exact ⟨by omega, by omega⟩

/-- Witness for C3: the single chunk of a 24-character text is within
bounds. -/
theorem C3_chunk_length_bounds_witness :
    prepareTextForEmbedding id "hello   world  this is fine" ∈
      processTextForEmbedding id "hello   world  this is fine" ∧
    10 ≤ (prepareTextForEmbedding id "hello   world  this is fine").length ∧
    (prepareTextForEmbedding id "hello   world  this is fine").length ≤ 8000 :=
  ⟨by decide,
   C3_chunk_length_bounds id "hello   world  this is fine" _ (by decide)⟩

/-! ## C1: batch embedding length and null placement -/

/-- An always-successful provider returning one vector per text. -/
def provOkPerText : Provider := fun _ req => .ok (req.map (fun _ => []))

/-- Unfolding lemma: one step of the batch loop on a nonempty text list. -/
theorem batchGoF_succ (nfc : String → String) (provider : Provider)
    (bs fuel : Nat) (texts : List String) (ctr : Nat) (hts : texts ≠ []) :
    batchGoF nfc provider bs (fuel + 1) texts ctr =
      (match (generateEmbeddingsWithRetryArr nfc provider (texts.take bs) 3 ctr).1 with
       | .ok embs =>
           (if embs.isEmpty then [some []] else embs.map some) ++
             batchGoF nfc provider bs fuel (texts.drop bs)
               (ctr + (generateEmbeddingsWithRetryArr nfc provider (texts.take bs) 3 ctr).2.length)
       | .error _ =>
           (perItems nfc provider (texts.take bs)
               (ctr + (generateEmbeddingsWithRetryArr nfc provider (texts.take bs) 3 ctr).2.length)).1 ++
             batchGoF nfc provider bs fuel (texts.drop bs)
               (perItems nfc provider (texts.take bs)
                 (ctr + (generateEmbeddingsWithRetryArr nfc provider (texts.take bs) 3 ctr).2.length)).2) := by
  match texts with
  | [] => exact absurd rfl hts
  | t :: ts => rfl

/-- The batch loop on an exhausted text list yields nothing. -/
theorem batchGoF_nil (nfc : String → String) (provider : Provider)
    (bs fuel ctr : Nat) : batchGoF nfc provider bs fuel [] ctr = [] := by
  cases fuel <;> rfl

/-- The per-item fallback produces one entry per text of the batch. -/
theorem perItems_length (nfc : String → String) (provider : Provider) :
    ∀ (ts : List String) (ctr : Nat),
      (perItems nfc provider ts ctr).1.length = ts.length := by
  intro ts
  induction ts with
  | nil => intro ctr; rfl
  | cons t ts ih =>
    intro ctr
    simp only [perItems]
    simp [ih]

/-- A successful `generateEmbeddings` call returns exactly the provider's
response body for the cleaned valid texts. -/
theorem genArr_ok_provider (nfc : String → String) (provider : Provider)
    (ctr : Nat) (texts : List String) (embs : List Vec)
    (h : generateEmbeddingsArr nfc provider ctr texts = .ok embs) :
    provider ctr ((texts.filter validText).map (prepareTextForEmbedding nfc)) =
      .ok embs := by
  simp only [generateEmbeddingsArr] at h
  by_cases he : (texts.filter validText).isEmpty
  · rw [if_pos he] at h
    exact absurd h (by simp)
  · rw [if_neg he] at h
    cases hp : provider ctr ((texts.filter validText).map (prepareTextForEmbedding nfc)) with
    | ok e =>
      rw [hp] at h
      simp at h
      rw [h]
    | err s =>
      rw [hp] at h
      simp at h

/-- A successful retried call comes from some successful underlying
call. -/
theorem genRetryGo_ok_exists (call : Nat → Except JsError α) :
    ∀ (rem att ctr : Nat) (le : JsError) (v : α),
      (genRetryGo call rem att ctr le).1 = .ok v → ∃ c, call c = .ok v := by
  intro rem
  induction rem with
  | zero =>
    intro att ctr le v h
    simp [genRetryGo] at h
  | succ n ih =>
    intro att ctr le v h
    simp only [genRetryGo] at h
    split at h
    next w hw =>
      refine ⟨ctr, ?_⟩
      rw [hw]
      exact congrArg Except.ok (by simpa using h)
    next e he =>
      split at h
      · simp at h
      · exact ih (att + 1) (ctr + 1) e v h

/-- With a faithful provider and all-valid texts, a successful retried
array call returns one embedding per input text. -/
theorem retryArr_ok_length (nfc : String → String) (provider : Provider)
    (texts : List String) (ctr : Nat) (embs : List Vec)
    (hfaith : Faithful provider)
    (hvalid : ∀ t ∈ texts, validText t = true)
    (h : (generateEmbeddingsWithRetryArr nfc provider texts 3 ctr).1 = .ok embs) :
    embs.length = texts.length := by
  simp only [generateEmbeddingsWithRetryArr] at h
  obtain ⟨c, hc⟩ := genRetryGo_ok_exists _ 3 1 ctr undefinedErr embs h
  have hp := genArr_ok_provider nfc provider c texts embs hc
  have hl := hfaith c _ _ hp
  rw [hl, List.length_map, List.filter_eq_self.mpr hvalid]

/-- Length preservation of the batch loop for batches of 5, all-valid
texts and a faithful provider. -/
theorem batchGoF_length (nfc : String → String) (provider : Provider)
    (hfaith : Faithful provider) :
    ∀ (fuel : Nat) (texts : List String) (ctr : Nat),
      texts.length ≤ fuel → (∀ t ∈ texts, validText t = true) →
      (batchGoF nfc provider 5 fuel texts ctr).length = texts.length := by
  intro fuel
  induction fuel with
  | zero =>
    intro texts ctr hle hv
    have h0 : texts = [] := List.length_eq_zero.mp (Nat.le_zero.mp hle)
    subst h0
    rfl
  | succ n ih =>
    intro texts ctr hle hv
    match texts with
    | [] => rfl
    | t :: ts =>
      rw [batchGoF_succ nfc provider 5 n (t :: ts) ctr (by simp)]
      have hvtake : ∀ x ∈ (t :: ts).take 5, validText x = true :=
        fun x hx => hv x (List.take_subset 5 _ hx)
      have hvdrop : ∀ x ∈ (t :: ts).drop 5, validText x = true :=
        fun x hx => hv x (List.drop_subset 5 _ hx)
      have hledrop : ((t :: ts).drop 5).length ≤ n := by
        rw [List.length_drop]
        simp only [List.length_cons] at hle ⊢
        omega
      cases hres : (generateEmbeddingsWithRetryArr nfc provider ((t :: ts).take 5) 3 ctr).1 with
      | ok embs =>
        have hlen : embs.length = ((t :: ts).take 5).length :=
          retryArr_ok_length nfc provider _ ctr embs hfaith hvtake hres
        have hpos : 0 < embs.length := by
          rw [hlen]
          simp [List.length_take]
        have hne : embs.isEmpty = false := by
          cases embs with
          | nil => simp at hpos
          | cons a l => rfl
        simp only [hres, hne, Bool.false_eq_true, if_false, List.length_append,
          List.length_map]
        rw [ih _ _ hledrop hvdrop, hlen, List.length_take, List.length_drop]
        simp only [List.length_cons] at hle ⊢
        omega
      | error e =>
        simp only [hres, List.length_append]
        rw [perItems_length, ih _ _ hledrop hvdrop, List.length_take, List.length_drop]
        simp only [List.length_cons] at hle ⊢
        omega

/-- An always-failing-then-recovering provider: HTTP 500 on the three
batch attempts and on the three attempts for the third item, success for
every other call. -/
def provBatchFail : Provider := fun c _ =>
  if c ≤ 2 || (5 ≤ c && c ≤ 7) then .err (some 500) else .ok [[]]

/-- Five valid texts for the batch scenarios. -/
def fiveValid : List String :=
  ["valid text one ok", "valid text two ok", "valid text three",
   "valid text four ok", "valid text five ok"]

/-- The third text of the counterexample batch: 8193 repetitions of
`'a'`, one character over the 8192 validation limit. -/
def t3bad : String := String.mk (List.replicate 8193 'a')

/-- A batch of five texts whose third item exceeds the length limit. -/
def cexTexts : List String :=
  ["valid text one ok", "valid text two ok", t3bad,
   "valid text four ok", "valid text five ok"]

/-- The oversize text is rejected by validation. -/
theorem validText_t3bad : validText t3bad = false := by
  have hstep : (List.replicate 8193 'a').dropWhile isJsWs = List.replicate 8193 'a' := by
    rw [show (8193 : Nat) = 8192 + 1 from rfl, List.replicate_succ, List.dropWhile_cons]
    rw [show isJsWs 'a' = false from by decide]
    rfl
  have htrim : jsTrim (List.replicate 8193 'a') = List.replicate 8193 'a' := by
    unfold jsTrim
    rw [hstep, List.reverse_replicate, hstep, List.reverse_replicate]
  have hlen : (jsTrimStr t3bad).length = 8193 := by
    have h1 : jsTrimStr t3bad = String.mk (List.replicate 8193 'a') := by
      show String.mk (jsTrim t3bad.data) = String.mk (List.replicate 8193 'a')
      have hdata : t3bad.data = List.replicate 8193 'a' := rfl
      rw [hdata, htrim]
    rw [h1]
    show (List.replicate 8193 'a').length = 8193
    rw [List.length_replicate]
  unfold validText
  rw [hlen]
  decide

/-- Filtering the counterexample batch drops exactly the oversize text. -/
theorem cexTexts_filter :
    cexTexts.filter validText =
      ["valid text one ok", "valid text two ok",
       "valid text four ok", "valid text five ok"] := by
  have h1 : validText "valid text one ok" = true := by decide
  have h2 : validText "valid text two ok" = true := by decide
  have h4 : validText "valid text four ok" = true := by decide
  have h5 : validText "valid text five ok" = true := by decide
  simp [cexTexts, List.filter_cons, h1, h2, h4, h5, validText_t3bad]

/-- On the counterexample batch, the single embedding call succeeds with
four embeddings: the oversize item was silently dropped, not failed. -/
theorem cex_gen_ok :
    generateEmbeddingsArr id provOkPerText 0 cexTexts = .ok [[], [], [], []] := by
  simp only [generateEmbeddingsArr, cexTexts_filter]
  rfl

/-- A first-attempt success leaves the retry loop at once, waiting only
the base delay. -/
theorem genRetryGo_first_ok (call : Nat → Except JsError α) (rem att ctr : Nat)
    (le : JsError) (v : α) (h : call ctr = .ok v) :
    genRetryGo call (rem + 1) att ctr le =
      (.ok v, [1000 + (if att > 1 then 2 ^ (att - 1) * 1000 else 0)]) := by
  simp only [genRetryGo, h]

/-- The retried call on the counterexample batch succeeds on the first
attempt with four embeddings. -/
theorem cex_retry :
    generateEmbeddingsWithRetryArr id provOkPerText cexTexts 3 0 =
      (.ok [[], [], [], []], [1000]) := by
  have h := genRetryGo_first_ok
    (fun c => generateEmbeddingsArr id provOkPerText c cexTexts) 2 1 0 undefinedErr
    [[], [], [], []] cex_gen_ok
  rw [show (1000 + (if 1 > 1 then 2 ^ (1 - 1) * 1000 else 0)) = 1000 from rfl] at h
  exact h

/-- C1 fails as frozen: for a batch of 5 texts whose third item exceeds
the length limit, with an otherwise successful provider,
`batchGenerateEmbeddings` returns only 4 results — all vectors, no
`null` — because validation silently dropped the oversize item inside a
successful batch. -/
theorem C1_counterexample :
    cexTexts.length = 5 ∧
    (batchGenerateEmbeddings id provOkPerText cexTexts 5 2000 0).length = 4 ∧
    (batchGenerateEmbeddings id provOkPerText cexTexts 5 2000 0).length ≠
      cexTexts.length := by
  refine ⟨rfl, ?_, ?_⟩
  · show (batchGoF id provOkPerText 5 cexTexts.length cexTexts 0).length = 4
    rw [show cexTexts.length = 4 + 1 from rfl,
      batchGoF_succ id provOkPerText 5 4 cexTexts 0 (by simp [cexTexts]),
      show cexTexts.take 5 = cexTexts from rfl, cex_retry,
      show cexTexts.drop 5 = [] from rfl]
    simp [batchGoF_nil]
  · show (batchGoF id provOkPerText 5 cexTexts.length cexTexts 0).length ≠ 5
    rw [show cexTexts.length = 4 + 1 from rfl,
      batchGoF_succ id provOkPerText 5 4 cexTexts 0 (by simp [cexTexts]),
      show cexTexts.take 5 = cexTexts from rfl, cex_retry,
      show cexTexts.drop 5 = [] from rfl]
    simp [batchGoF_nil]

/-- C1 (amended): when every input text passes validation and the
provider returns one vector per requested text, `batchGenerateEmbeddings`
returns one entry per input, and `null` appears exactly at the positions
whose item permanently failed — as in the concrete run where the whole
batch call fails and item 3 alone fails its individual retries. -/
theorem C1_batch_length_preserved (nfc : String → String) (provider : Provider)
    (texts : List String) (ctr : Nat)
    (hfaith : Faithful provider)
    (hvalid : ∀ t ∈ texts, validText t = true) :
    (batchGenerateEmbeddings nfc provider texts 5 2000 ctr).length = texts.length ∧
    batchGenerateEmbeddings id provBatchFail fiveValid 5 2000 0 =
      [some [], some [], none, some [], some []] :=
  ⟨batchGoF_length nfc provider hfaith texts.length texts ctr (le_refl _) hvalid,
   by rfl⟩

/-- Witness for C1 at five valid texts and the per-text provider. -/
theorem C1_batch_length_preserved_witness :
    Faithful provOkPerText ∧ (∀ t ∈ fiveValid, validText t = true) ∧
    (batchGenerateEmbeddings id provOkPerText fiveValid 5 2000 0).length =
      fiveValid.length := by
  have hf : Faithful provOkPerText := by
    intro ctr req embs h
    simp only [provOkPerText, ApiOutcome.ok.injEq] at h
    rw [← h, List.length_map]
  exact ⟨hf, by decide,
    (C1_batch_length_preserved id provOkPerText fiveValid 0 hf (by decide)).1⟩

/-! ## C4: retry backoff delays -/

/-- A provider answering HTTP 429 on the first two calls and succeeding
on the third. -/
def prov429 : Provider := fun c _ => if c ≤ 1 then .err (some 429) else .ok [[1]]

/-- The delays waited by the retry loop follow the backoff formula
`baseDelay 1000 + (attempt > 1 ? 2^(attempt-1)*1000 : 0)` with attempts
numbered from `att`. -/
theorem genRetryGo_waits_eq {α : Type} (call : Nat → Except JsError α) :
    ∀ (rem att ctr : Nat) (le : JsError), ∃ k,
      (genRetryGo call rem att ctr le).2 =
        (List.range k).map
          (fun i => 1000 + if att + i > 1 then 2 ^ (att + i - 1) * 1000 else 0) := by
  intro rem
  induction rem with
  | zero => intro att ctr le; exact ⟨0, rfl⟩
  | succ n ih =>
    intro att ctr le
    simp only [genRetryGo]
    split
    next w hw =>
      refine ⟨1, ?_⟩
      rw [show List.range 1 = [0] from by decide]
      simp
    next e he =>
      split
      · refine ⟨1, ?_⟩
        rw [show List.range 1 = [0] from by decide]
        simp
      · obtain ⟨k, hk⟩ := ih (att + 1) (ctr + 1) e
        refine ⟨k + 1, ?_⟩
        rw [List.range_succ_eq_map, List.map_cons, List.map_map]
        refine List.cons_eq_cons.mpr ⟨?_, ?_⟩
        · simp
        · rw [hk]
          apply List.map_congr_left
          intro i _
          simp only [Function.comp_apply, Nat.succ_eq_add_one]
          have h1 : att + 1 + i = att + (i + 1) := by omega
          rw [h1]

/-- C4 (amended): in `generateEmbeddingsWithRetry`, the wait before
attempt `i+1` equals `baseDelay + (i > 0 ? 2^i * 1000 : 0)` with
`baseDelay = 1000` paid before every attempt; in the 429-429-success
scenario the call succeeds on the third attempt and the total elapsed
wait is `3*baseDelay + 2*1000 + 4*1000 = 9000`, the base delay being
paid three times. -/
theorem C4_backoff_formula (nfc : String → String) (provider : Provider)
    (texts : List String) (maxRetries ctr : Nat) :
    (generateEmbeddingsWithRetryArr nfc provider texts maxRetries ctr).2 =
      (List.range
          (generateEmbeddingsWithRetryArr nfc provider texts maxRetries ctr).2.length).map
        (fun i => 1000 + if 0 < i then 2 ^ i * 1000 else 0) ∧
    ((generateEmbeddingsWithRetryArr id prov429 ["latest news query"] 3 0).1 =
        .ok [[1]] ∧
      (generateEmbeddingsWithRetryArr id prov429 ["latest news query"] 3 0).2 =
        [1000, 3000, 5000] ∧
      (generateEmbeddingsWithRetryArr id prov429 ["latest news query"] 3 0).2.sum =
        3 * 1000 + (2 * 1000 + 4 * 1000)) := by
  refine ⟨?_, rfl, by decide, by decide⟩
  obtain ⟨k, hk⟩ := genRetryGo_waits_eq
    (fun c => generateEmbeddingsArr nfc provider c texts) maxRetries 1 ctr undefinedErr
  simp only [generateEmbeddingsWithRetryArr]
  rw [hk]
  simp only [List.length_map, List.length_range]
  apply List.map_congr_left
  intro i _
  by_cases hi : 0 < i
  · rw [if_pos (by omega : 1 + i > 1), if_pos hi]
    have h1 : 1 + i - 1 = i := by omega
    rw [h1]
  · have h0 : i = 0 := by omega
    subst h0
    simp

/-- C4 fails as frozen: in the 429-429-success scenario the total
elapsed wait is 9000 ms, not the claimed `baseDelay + 2*1000 + 4*1000 =
7000` ms — the 1000 ms base delay is paid before every one of the three
attempts, not once. -/
theorem C4_counterexample :
    (generateEmbeddingsWithRetryArr id prov429 ["latest news query"] 3 0).1 =
      .ok [[1]] ∧
    (generateEmbeddingsWithRetryArr id prov429 ["latest news query"] 3 0).2.sum = 9000 ∧
    (generateEmbeddingsWithRetryArr id prov429 ["latest news query"] 3 0).2.sum ≠
      1000 + (2 * 1000 + 4 * 1000) :=
  ⟨rfl, by decide, by decide⟩

/-! ## C5: authentication errors and the retry loop -/

/-- A provider whose every call is rejected with HTTP 401. -/
def prov401 : Provider := fun _ _ => .err (some 401)

/-- The rewrapped errors of `generateEmbeddings` never carry a
`response`. -/
theorem wrapApiError_response (s : Option Nat) :
    (wrapApiError s).response = none := by
  unfold wrapApiError
  split <;> rfl

/-- C5 fails on the code: every error thrown by `generateEmbeddings` is a
fresh `Error` without `response`, so the retry loop's 401/403 short-cut
never fires; with a provider returning 401 on every attempt, all three
attempts are made (three waits) before the wrapped auth error is
thrown. -/
theorem C5_auth_errors_are_retried :
    (∀ (nfc : String → String) (provider : Provider) (c : Nat)
        (texts : List String) (e : JsError),
        generateEmbeddingsArr nfc provider c texts = .error e → e.response = none) ∧
    (generateEmbeddingsWithRetryArr id prov401 ["latest news query"] 3 0).2 =
      [1000, 3000, 5000] ∧
    (generateEmbeddingsWithRetryArr id prov401 ["latest news query"] 3 0).1 =
      .error ⟨"Invalid API key. Please check your JINA_API_KEY.", none⟩ := by
  refine ⟨?_, by decide, rfl⟩
  intro nfc provider c texts e h
  simp only [generateEmbeddingsArr] at h
  by_cases he : (texts.filter validText).isEmpty
  · rw [if_pos he] at h
    rw [← Except.error.inj h]
  · rw [if_neg he] at h
    cases hp : provider c ((texts.filter validText).map (prepareTextForEmbedding nfc)) with
    | ok w =>
      rw [hp] at h
      exact absurd h (by simp)
    | err s =>
      rw [hp] at h
      rw [← Except.error.inj h]
      exact wrapApiError_response s

/-- Witness for the universal part of C5's theorem at a concrete failing
call. -/
theorem C5_auth_errors_are_retried_witness :
    generateEmbeddingsArr id prov401 0 ["latest news query"] =
      .error ⟨"Invalid API key. Please check your JINA_API_KEY.", none⟩ ∧
    (⟨"Invalid API key. Please check your JINA_API_KEY.", none⟩ : JsError).response =
      none :=
  ⟨rfl, C5_auth_errors_are_retried.1 id prov401 0 ["latest news query"] _ rfl⟩

/-! ## C6: Qdrant collection initialization -/

/-- C6: `initializeQdrant` creates the missing collection with dimension
768 and Cosine distance, deletes and recreates a collection of the wrong
dimension, and always leaves a collection of dimension 768. -/
theorem C6_initializeQdrant_spec (s : QdrantState) :
    (∀ cfg, (initializeQdrant s).1 = some cfg → cfg.size = 768) ∧
    (initializeQdrant s).1.isSome = true ∧
    (s = none →
      initializeQdrant s =
        (some ⟨768, "Cosine"⟩, [.created ⟨768, "Cosine"⟩])) ∧
    (∀ cfg, s = some cfg → cfg.size ≠ 768 →
      initializeQdrant s =
        (some ⟨768, "Cosine"⟩, [.deleted, .created ⟨768, "Cosine"⟩])) := by
  rcases s with _ | c
  · refine ⟨?_, ?_, ?_, ?_⟩
    · intro cfg h
      simp [initializeQdrant, getCollection, createCollection] at h
      simp [← h]
    · simp [initializeQdrant, getCollection, createCollection]
    · intro _; simp [initializeQdrant, getCollection, createCollection]
    · intro cfg h; exact absurd h (by simp)
  · by_cases hc : c.size = 768
    · refine ⟨?_, ?_, ?_, ?_⟩
      · intro cfg h
        simp [initializeQdrant, getCollection, hc] at h
        simp [← h, hc]
      · simp [initializeQdrant, getCollection, hc]
      · intro h; exact absurd h (by simp)
      · intro cfg h hne
        injection h with h; subst h; exact absurd hc hne
    · refine ⟨?_, ?_, ?_, ?_⟩
      · intro cfg h
        simp [initializeQdrant, getCollection, deleteCollection, createCollection, hc] at h
        simp [← h]
      · simp [initializeQdrant, getCollection, deleteCollection, createCollection, hc]
      · intro h; exact absurd h (by simp)
      · intro cfg h _
        injection h with h; subst h
        simp [initializeQdrant, getCollection, deleteCollection, createCollection, hc]

/-- Witness for C6 at an absent collection and at a 512-dimension one. -/
theorem C6_initializeQdrant_witness :
    initializeQdrant none =
      (some ⟨768, "Cosine"⟩, [.created ⟨768, "Cosine"⟩]) ∧
    (512 ≠ 768 ∧
      initializeQdrant (some ⟨512, "Cosine"⟩) =
        (some ⟨768, "Cosine"⟩, [.deleted, .created ⟨768, "Cosine"⟩])) :=
  ⟨(C6_initializeQdrant_spec none).2.2.1 rfl,
   by decide,
   (C6_initializeQdrant_spec (some ⟨512, "Cosine"⟩)).2.2.2 _ rfl (by decide)⟩

/-! ## C7: conversation history retrieval -/

/-- C7 fails as frozen at `limit = 0`: the read path issues
`LRANGE 0 (-1)`, i.e. the whole list, so all messages come back instead
of none. -/
theorem C7_counterexample :
    getMessages (mkStore [1, 2]) (0 : Int) = ([1, 2] : List Nat) ∧
    ([1, 2] : List Nat).drop (([1, 2] : List Nat).length - (0 : Int).toNat) = [] ∧
    getMessages (mkStore [1, 2]) (0 : Int) ≠
      ([1, 2] : List Nat).drop (([1, 2] : List Nat).length - (0 : Int).toNat) := by
  refine ⟨by decide, by decide, by decide⟩

/-- C7 (amended): for every positive `limit`, `getMessages` on the store
built by pushing `l` in order returns exactly the most recent `limit`
messages, oldest first — the chronological suffix `l.drop (l.length -
limit)`. -/
theorem C7_getMessages_recent {α : Type} (l : List α) (limit : Int)
    (h : 1 ≤ limit) :
    getMessages (mkStore l) limit = l.drop (l.length - limit.toNat) := by
  rw [mkStore_eq_reverse]
  have hstop : ¬(limit - 1 < 0) := by omega
  simp only [getMessages, redisLrange, if_neg hstop]
  by_cases hc : min (limit - 1) ((l.reverse.length : Int) - 1) < 0
  · rw [if_pos hc]
    have hl : l = [] := by
      have hlen : l.length = 0 := by
        rw [List.length_reverse] at hc
        omega
      exact List.length_eq_zero.mp hlen
    subst hl
    simp
  · rw [if_neg hc]
    have harg : (min (limit - 1) ((l.reverse.length : Int) - 1) + 1).toNat =
        min limit.toNat l.reverse.length := by
      simp only [List.length_reverse] at hc ⊢
      omega
    rw [harg, take_min_length, reverse_take_reverse]

/-- Witness for C7: the last two of three messages, in order. -/
theorem C7_getMessages_recent_witness :
    (1 : Int) ≤ 2 ∧
    getMessages (mkStore [10, 20, 30]) (2 : Int) =
      ([10, 20, 30] : List Nat).drop (([10, 20, 30] : List Nat).length - (2 : Int).toNat) :=
  ⟨by decide, C7_getMessages_recent [10, 20, 30] 2 (by decide)⟩

/-! ## C8: empty retrieval falls back to the context-free answer -/

/-- C8: in `processRAGQuery`, when the embedding call succeeds and the
similarity search returns an empty list, no error is raised and the
result is the context-free fallback answer — the value the non-news
branch of `sendMessage` produces for the same message. -/
theorem C8_empty_retrieval_fallback {R D H : Type} (nfc : String → String)
    (provider : Provider) (llm : LLMOracle R D H) (vs : SearchOracle D)
    (query : String) (hist : List H) (ctr : Nat) (emb : Vec)
    (hemb : (generateEmbeddingsWithRetryOne nfc provider
      (jsTrimStr (query ++ " " ++ llm.expandQuery query)) 3 ctr).1 = .ok emb)
    (hsearch : vs.searchSimilar emb 5 = .ok []) :
    processRAGQuery nfc provider llm vs query hist ctr =
      .ok (nonNewsResponse llm query) := by
  simp only [processRAGQuery, nonNewsResponse]
  rw [hemb]
  simp [hsearch]

/-- Concrete oracles for the C8 witness. -/
def llmW : LLMOracle Nat Nat Nat :=
  ⟨fun _ => "expanded", fun _ _ _ => 1, fun _ => 2⟩

/-- A vector search that finds nothing. -/
def vsEmpty : SearchOracle Nat := ⟨fun _ _ => .ok []⟩

/-- Witness for C8 at concrete oracles and the query "latest news today". -/
theorem C8_empty_retrieval_fallback_witness :
    (generateEmbeddingsWithRetryOne id provOkPerText
      (jsTrimStr ("latest news today" ++ " " ++ llmW.expandQuery "latest news today")) 3 0).1 =
        .ok [] ∧
    vsEmpty.searchSimilar [] 5 = .ok [] ∧
    processRAGQuery id provOkPerText llmW vsEmpty "latest news today" [] 0 =
      .ok (nonNewsResponse llmW "latest news today") :=
  ⟨rfl, rfl,
   C8_empty_retrieval_fallback id provOkPerText llmW vsEmpty
     "latest news today" [] 0 [] rfl rfl⟩

/-! ## C9: cosine similarity -/

/-- Both accumulated norms of the similarity loop are nonnegative. -/
theorem simLoop_nonneg : ∀ (a b : List ℝ),
    0 ≤ (simLoop a b).2.1 ∧ 0 ≤ (simLoop a b).2.2 := by
  intro a
  induction a with
  | nil => intro b; simp [simLoop]
  | cons x xs ih =>
    intro b
    cases b with
    | nil => simp [simLoop]
    | cons y ys =>
      obtain ⟨h1, h2⟩ := ih ys
      simp only [simLoop]
      constructor
      · nlinarith [mul_self_nonneg x]
      · nlinarith [mul_self_nonneg y]

/-- Cauchy-Schwarz for the similarity loop: the accumulated dot product
squared is bounded by the product of the accumulated norms. -/
theorem simLoop_cauchy : ∀ (a b : List ℝ),
    (simLoop a b).1 ^ 2 ≤ (simLoop a b).2.1 * (simLoop a b).2.2 := by
  intro a
  induction a with
  | nil => intro b; simp [simLoop]
  | cons x xs ih =>
    intro b
    cases b with
    | nil => simp [simLoop]
    | cons y ys =>
      have hd := ih ys
      obtain ⟨hP, hQ⟩ := simLoop_nonneg xs ys
      simp only [simLoop]
      rcases eq_or_lt_of_le hQ with hQ0 | hQpos
      · have hq : (simLoop xs ys).2.2 = 0 := hQ0.symm
        rw [hq, mul_zero] at hd
        have h2 : (simLoop xs ys).1 = 0 :=
          pow_eq_zero_iff (by norm_num : (2 : ℕ) ≠ 0) |>.mp
            (le_antisymm hd (sq_nonneg _))
        rw [h2, hq]
        nlinarith [mul_nonneg hP (sq_nonneg y), sq_nonneg (x * y)]
      · nlinarith [hd, hP, hQ, hQpos,
          sq_nonneg ((simLoop xs ys).1 * y - (simLoop xs ys).2.2 * x),
          mul_nonneg (sub_nonneg.mpr hd) (sq_nonneg y),
          mul_nonneg hQ (sub_nonneg.mpr hd)]

/-- C9: `calculateSimilarity` raises when the dimensions differ; on equal
dimensions it returns `0` when the magnitude product is zero and
otherwise a similarity in `[-1, 1]`. -/
theorem C9_calculateSimilarity_spec (a b : List ℝ) :
    (a.length ≠ b.length →
      calculateSimilarity a b =
        .error "Vectors must be valid and have the same dimension") ∧
    (a.length = b.length →
      (Real.sqrt (simLoop a b).2.1 * Real.sqrt (simLoop a b).2.2 = 0 →
        calculateSimilarity a b = .ok 0) ∧
      (Real.sqrt (simLoop a b).2.1 * Real.sqrt (simLoop a b).2.2 ≠ 0 →
        ∃ r, calculateSimilarity a b = .ok r ∧ -1 ≤ r ∧ r ≤ 1)) := by
  constructor
  · intro hne
    simp only [calculateSimilarity, if_pos hne]
  · intro heq
    constructor
    · intro hm
      simp only [calculateSimilarity, if_neg (by omega : ¬a.length ≠ b.length), if_pos hm]
    · intro hm
      obtain ⟨hP, hQ⟩ := simLoop_nonneg a b
      have hcs := simLoop_cauchy a b
      have hmnn : 0 ≤ Real.sqrt (simLoop a b).2.1 * Real.sqrt (simLoop a b).2.2 :=
        mul_nonneg (Real.sqrt_nonneg _) (Real.sqrt_nonneg _)
      have hmpos : 0 < Real.sqrt (simLoop a b).2.1 * Real.sqrt (simLoop a b).2.2 :=
        lt_of_le_of_ne hmnn (Ne.symm hm)
      have habs : |(simLoop a b).1| ≤
          Real.sqrt (simLoop a b).2.1 * Real.sqrt (simLoop a b).2.2 := by
        rw [← Real.sqrt_mul hP, ← Real.sqrt_sq_eq_abs]
        exact Real.sqrt_le_sqrt hcs
      have hb := abs_le.mp habs
      refine ⟨(simLoop a b).1 /
          (Real.sqrt (simLoop a b).2.1 * Real.sqrt (simLoop a b).2.2), ?_, ?_, ?_⟩
      · simp only [calculateSimilarity, if_neg (by omega : ¬a.length ≠ b.length),
          if_neg hm]
      · exact (le_div_iff₀ hmpos).mpr (by linarith [hb.1])
      · exact (div_le_one hmpos).mpr hb.2

/-- Witness for C9: the error case, the zero-magnitude case and the
generic case at concrete vectors. -/
theorem C9_calculateSimilarity_spec_witness :
    calculateSimilarity [1] [] =
      .error "Vectors must be valid and have the same dimension" ∧
    calculateSimilarity [(0 : ℝ)] [0] = .ok 0 ∧
    ∃ r, calculateSimilarity [(1 : ℝ), 0] [0, 1] = .ok r ∧ -1 ≤ r ∧ r ≤ 1 :=
  ⟨(C9_calculateSimilarity_spec [1] []).1 (by simp),
   ((C9_calculateSimilarity_spec [0] [0]).2 (by simp)).1
     (by simp [simLoop, Real.sqrt_zero]),
   ((C9_calculateSimilarity_spec [1, 0] [0, 1]).2 (by simp)).2
     (by simp [simLoop, Real.sqrt_one])⟩

/-! ## C10: all-invalid input raises instead of returning empty -/

/-- C10: if every input text fails validation, `generateEmbeddings`
raises the "No valid texts provided for embedding" error (rethrown by
its own catch under the generic prefix) instead of returning an empty
sequence; and when at least one valid text remains, the invalid entries
are dropped silently and the call succeeds with the provider's
embeddings. -/
theorem C10_no_valid_texts (nfc : String → String) (provider : Provider)
    (ctr : Nat) (texts : List String) :
    ((∀ t ∈ texts, validText t = false) →
      generateEmbeddingsArr nfc provider ctr texts =
        .error ⟨"Failed to generate embeddings: No valid texts provided for embedding", none⟩) ∧
    (∀ embs, texts.filter validText ≠ [] →
      provider ctr ((texts.filter validText).map (prepareTextForEmbedding nfc)) = .ok embs →
      generateEmbeddingsArr nfc provider ctr texts = .ok embs) := by
  constructor
  · intro hall
    have hfil : texts.filter validText = [] := by
      rw [List.filter_eq_nil_iff]
      intro a ha
      simp [hall a ha]
    simp [generateEmbeddingsArr, hfil]
  · intro embs hne hok
    have hfil : (texts.filter validText).isEmpty = false := by
      simpa [List.isEmpty_iff] using hne
    simp [generateEmbeddingsArr, hfil, hok]

/-- Witness for C10: `["", " "]` raises the wrapped error; with one valid
text the empty entry is dropped and the call succeeds. -/
theorem C10_no_valid_texts_witness :
    (∀ t ∈ ["", " "], validText t = false) ∧
    generateEmbeddingsArr id provOkPerText 0 ["", " "] =
      .error ⟨"Failed to generate embeddings: No valid texts provided for embedding", none⟩ ∧
    (["hello world ok", ""].filter validText ≠ [] ∧
      generateEmbeddingsArr id provOkPerText 0 ["hello world ok", ""] =
        .ok [[]]) :=
  ⟨by decide, (C10_no_valid_texts id provOkPerText 0 ["", " "]).1 (by decide),
   by decide,
   (C10_no_valid_texts id provOkPerText 0 ["hello world ok", ""]).2 [[]]
     (by decide) rfl⟩

end RagBackend
